import Mathlib

/-!
Verification of the unjobzone-api ingestion pipeline.

This file gives a shallow embedding, in Lean 4, of the data-handling core of
the repository: the candidate validation (`validateJobData`), the natural-key
upsert (`upsertJobVacancy`), the cleanup engine
(`cleanupExpiredAndDuplicateJobs`), the organization resolver
(`getOrganizationId`) and the per-source orchestration loop (`runEtl`).
The durable store `job_vacancies` is embedded as a list of rows; SQL
statements become list transformations; JavaScript objects become structures
with `Option` fields (a `none` field stands for an absent, `undefined` or
`null` value, and JavaScript truthiness treats the empty string and zero as
falsy). Timestamps are embedded as integers; a call's `NOW()` is an explicit
`now` parameter.
-/

namespace UnJobZone

/-- JavaScript truthiness of an optional string field: absent, `null` and
the empty string are all falsy. -/
def strTruthy : Option String → Bool
  | none => false
  | some s => !(s == "")

/-- JavaScript truthiness of an optional numeric field: absent, `null` and
zero are falsy. -/
def intTruthy : Option Int → Bool
  | none => false
  | some n => !(n == 0)

/-- The JavaScript expression `v || d` on an optional string value. -/
def jsOr (v : Option String) (d : String) : String :=
  match v with
  | none => d
  | some s => if s == "" then d else s

/-- The JavaScript expression `v || null` on an optional numeric value. -/
def jsOrNullInt (v : Option Int) : Option Int :=
  match v with
  | none => none
  | some n => if n == 0 then none else some n

/-- A candidate job object as passed to `upsertJobVacancy` by a connector.
Every field may be absent, as in a JavaScript object. Date fields are
embedded as `Option Int` (a parsed timestamp or `null`); the
`isNaN(new Date(...))` format checks of `validateJobData` can therefore
never fire in this embedding and are omitted from its definition. -/
structure JobData where
  job_id : Option String := none
  language : Option String := none
  category_code : Option String := none
  job_title : Option String := none
  job_code_title : Option String := none
  job_description : Option String := none
  job_family_code : Option String := none
  job_level : Option String := none
  duty_station : Option String := none
  recruitment_type : Option String := none
  start_date : Option Int := none
  end_date : Option Int := none
  dept : Option String := none
  total_count : Option Int := none
  jn : Option String := none
  jf : Option String := none
  jc : Option String := none
  jl : Option String := none
  data_source : Option String := none
  organization_id : Option Int := none
  apply_link : Option String := none
deriving Repr, DecidableEq

/-- The field names that `validateJobData` can be asked to require. -/
inductive JobField where
  | job_id
  | job_title
  | data_source
  | organization_id
deriving Repr, DecidableEq

/-- The name of a required field, used in the error message. -/
def JobField.fieldName : JobField → String
  | .job_id => "job_id"
  | .job_title => "job_title"
  | .data_source => "data_source"
  | .organization_id => "organization_id"

/-- JavaScript truthiness of `job[field]` for a required-field check. -/
def JobField.truthyIn (f : JobField) (job : JobData) : Bool :=
  match f with
  | .job_id => strTruthy job.job_id
  | .job_title => strTruthy job.job_title
  | .data_source => strTruthy job.data_source
  | .organization_id => intTruthy job.organization_id

/-- Result shape of `validateJobData`. -/
structure ValidationResult where
  isValid : Bool
  errors : List String
deriving Repr, DecidableEq

/-- The JavaScript check `job.job_id.toString().trim() === ''`: the string
consists only of whitespace. -/
def trimEmpty (s : String) : Bool :=
  s.toList.all Char.isWhitespace

/-- Embedding of `validateJobData(job, requiredFields)` from the shared ETL
utilities: one error per missing (falsy) required field, an error for an
absent or whitespace-only `job_id`, and an error when `job_title` is present
and longer than 500 characters. `isValid` is true exactly when no error was
collected. -/
def validateJobData (job : JobData) (requiredFields : List JobField) : ValidationResult :=
  let requiredErrors := requiredFields.filterMap fun f =>
    if f.truthyIn job then none else some ("Missing required field: " ++ f.fieldName)
  let jobIdErrors :=
    match job.job_id with
    | none => ["Invalid job_id: must be non-empty"]
    | some s => if trimEmpty s then ["Invalid job_id: must be non-empty"] else []
  let titleErrors :=
    match job.job_title with
    | none => []
    | some t => if t.length > 500 then ["Job title exceeds maximum length (500 characters)"] else []
  let errors := requiredErrors ++ jobIdErrors ++ titleErrors
  { isValid := errors.isEmpty, errors := errors }

/-- A stored row of the `job_vacancies` table. -/
structure JobRow where
  id : Nat
  job_id : String
  language : String
  category_code : String
  job_title : String
  job_code_title : String
  job_description : String
  job_family_code : String
  job_level : String
  duty_station : String
  recruitment_type : String
  start_date : Option Int
  end_date : Option Int
  dept : String
  total_count : Option Int
  jn : String
  jf : String
  jc : String
  jl : String
  created : Int
  data_source : String
  organization_id : Int
  apply_link : String
deriving Repr, DecidableEq

/-- The `job_vacancies` table, embedded as a list of rows in insertion
order. -/
abbrev JobStore := List JobRow

/-- The natural key `(job_id, data_source, organization_id)` of a stored
row, the column list of the `unique_job_vacancy` constraint and of the
`ON CONFLICT` clause of the upsert. -/
def JobRow.naturalKey (r : JobRow) : String × String × Int :=
  (r.job_id, r.data_source, r.organization_id)

/-- The natural key carried by a candidate, given its resolved
organization id. -/
def candidateKey (job : JobData) (orgId : Int) : String × String × Int :=
  (job.job_id.getD "", job.data_source.getD "", orgId)

/-- The next value of the `id` serial column: one more than the largest id
in use. -/
def nextId (store : JobStore) : Nat :=
  (store.map JobRow.id).foldr max 0 + 1

/-- The row built by the INSERT arm of the upsert, with the JavaScript
default expressions of the parameter list (`language || 'EN'`,
`category_code || ''`, `total_count || null`, ...); `created` is the
call-time `new Date()`. -/
def mkRow (newId : Nat) (job : JobData) (orgId : Int) (now : Int) : JobRow where
  id := newId
  job_id := job.job_id.getD ""
  language := jsOr job.language "EN"
  category_code := jsOr job.category_code ""
  job_title := job.job_title.getD ""
  job_code_title := jsOr job.job_code_title ""
  job_description := jsOr job.job_description ""
  job_family_code := jsOr job.job_family_code ""
  job_level := jsOr job.job_level ""
  duty_station := jsOr job.duty_station ""
  recruitment_type := jsOr job.recruitment_type ""
  start_date := job.start_date
  end_date := job.end_date
  dept := jsOr job.dept ""
  total_count := jsOrNullInt job.total_count
  jn := jsOr job.jn ""
  jf := jsOr job.jf ""
  jc := jsOr job.jc ""
  jl := jsOr job.jl ""
  created := now
  data_source := job.data_source.getD ""
  organization_id := orgId
  apply_link := jsOr job.apply_link ""

/-- The DO UPDATE arm of the upsert: every mutable field is overwritten
with the candidate's (EXCLUDED) value and `created` is refreshed to
`NOW()`; the key columns `id`, `job_id`, `data_source` and
`organization_id` are not in the SET list and keep their stored values. -/
def updateRow (r : JobRow) (job : JobData) (now : Int) : JobRow :=
  { r with
    language := jsOr job.language "EN"
    category_code := jsOr job.category_code ""
    job_title := job.job_title.getD ""
    job_code_title := jsOr job.job_code_title ""
    job_description := jsOr job.job_description ""
    job_family_code := jsOr job.job_family_code ""
    job_level := jsOr job.job_level ""
    duty_station := jsOr job.duty_station ""
    recruitment_type := jsOr job.recruitment_type ""
    start_date := job.start_date
    end_date := job.end_date
    dept := jsOr job.dept ""
    total_count := jsOrNullInt job.total_count
    jn := jsOr job.jn ""
    jf := jsOr job.jf ""
    jc := jsOr job.jc ""
    jl := jsOr job.jl ""
    created := now
    apply_link := jsOr job.apply_link "" }

/-- Which arm of the upsert fired, as reported by the
`CASE WHEN xmax = 0 THEN 'inserted' ELSE 'updated' END` column. -/
inductive UpsertAction where
  | inserted
  | updated
deriving Repr, DecidableEq

/-- Result of `upsertJobVacancy`. JavaScript encodes every failure as
`{ success: false, error }`; the embedding keeps the two failure branches
distinct: `validationFailure` is the early return on invalid input (no
write is attempted) and `databaseFailure` is the catch block around the
query. -/
inductive UpsertResult where
  | success (jobTitle : String) (action : UpsertAction)
  | validationFailure (errors : List String)
  | databaseFailure (message : String)
deriving Repr, DecidableEq

/-- The fields `upsertJobVacancy` passes to `validateJobData` as required:
`['job_id', 'job_title', 'data_source']`. -/
def upsertRequiredFields : List JobField :=
  [.job_id, .job_title, .data_source]

/-- The storage-layer error surfaced when the candidate carries no
organization id. Modelled from the spec: the `job_vacancies` DDL itself is
not under `src/` (only the migration adding `unique_job_vacancy` is); the
spec's schema makes `organization_id` a column of the natural key whose
triple is globally unique, and the repository's duplicate-prevention guide
states that the UPSERT operation fails when `organization_id` is null, so
the write is embedded as a storage-layer failure that leaves the store
unchanged. -/
def nullOrganizationIdMessage : String :=
  "Database error: null value in column organization_id violates not-null constraint"

/-- Embedding of `upsertJobVacancy(client, jobData, organizationName)`:
validate the three required fields, then run
`INSERT ... ON CONFLICT (job_id, data_source, organization_id) DO UPDATE`,
reporting which arm fired. Returns the result together with the store
after the call. -/
def upsertJobVacancy (store : JobStore) (jobData : JobData) (now : Int) :
    UpsertResult × JobStore :=
  let validation := validateJobData jobData upsertRequiredFields
  if !validation.isValid then
    (.validationFailure validation.errors, store)
  else
    match jobData.organization_id with
    | none => (.databaseFailure nullOrganizationIdMessage, store)
    | some orgId =>
      let key := candidateKey jobData orgId
      if store.any (fun r => r.naturalKey == key) then
        (.success (jobData.job_title.getD "") .updated,
         store.map fun r => if r.naturalKey == key then updateRow r jobData now else r)
      else
        (.success (jobData.job_title.getD "") .inserted,
         store ++ [mkRow (nextId store) jobData orgId now])

/-- A whole sequence of merges: fold `upsertJobVacancy` over a list of
(candidate, call time) pairs, keeping only the store. -/
def upsertMany (store : JobStore) (calls : List (JobData × Int)) : JobStore :=
  calls.foldl (fun s c => (upsertJobVacancy s c.1 c.2).2) store

/-! ## Cleanup engine -/

/-- `end_date < NOW()`: the row's deadline is strictly in the past. A SQL
comparison against a NULL `end_date` is not true, so a row with no
`end_date` is never expired. -/
def isExpired (r : JobRow) (now : Int) : Bool :=
  match r.end_date with
  | some d => decide (d < now)
  | none => false

/-- The rows the expired-jobs query counts and the expired DELETE removes. -/
def expiredRows (store : JobStore) (now : Int) : JobStore :=
  store.filter fun r => isExpired r now

/-- The store after `DELETE FROM job_vacancies WHERE end_date < NOW()`. -/
def expiredPass (store : JobStore) (now : Int) : JobStore :=
  store.filter fun r => !(isExpired r now)

/-- The grouping columns of the duplicate pass:
`PARTITION BY job_title, duty_station, data_source, organization_id`. -/
def groupKey (r : JobRow) : String × String × String × Int :=
  (r.job_title, r.duty_station, r.data_source, r.organization_id)

/-- Row `a` sorts strictly before row `b` under
`ORDER BY created DESC, id DESC`. -/
def sortsBefore (a b : JobRow) : Bool :=
  decide (b.created < a.created) || (a.created == b.created && decide (b.id < a.id))

/-- The duplicate DELETE: a row survives exactly when no row of its group
sorts strictly before it (its `ROW_NUMBER` is 1). -/
def duplicatePass (store : JobStore) : JobStore :=
  store.filter fun r => !(store.any fun q => groupKey q == groupKey r && sortsBefore q r)

/-- `totalDuplicateJobs`: the same-organization duplicate count, the sum of
`COUNT(*) - 1` over every group; groups of size one contribute zero, so the
sum equals the number of rows minus the number of distinct group keys. -/
def totalDuplicateJobs (store : JobStore) : Nat :=
  store.length - (store.map groupKey).dedup.length

/-- `totalExpiredJobs`: how many rows the expired query finds. -/
def totalExpiredJobs (store : JobStore) (now : Int) : Nat :=
  (expiredRows store now).length

/-- One line of the per-source expired report: count of expired rows for
the source together with `MIN(end_date)` and `MAX(end_date)`. -/
def sourceExpiredSummary (store : JobStore) (now : Int) (src : String) :
    Nat × Option Int × Option Int :=
  let es := (expiredRows store now).filter fun r => r.data_source == src
  (es.length, (es.filterMap JobRow.end_date).min?, (es.filterMap JobRow.end_date).max?)

/-- `stats.organizationBreakdown`: the expired query grouped by
`data_source`. -/
def organizationBreakdown (store : JobStore) (now : Int) :
    List (String × Nat × Option Int × Option Int) :=
  ((expiredRows store now).map JobRow.data_source).dedup.map fun src =>
    (src, sourceExpiredSummary store now src)

/-- The statistics object assembled by `cleanupExpiredAndDuplicateJobs`.
The wall-clock fields (`startTime`, `endTime`, `durationSeconds`) are not
part of the embedding. -/
structure CleanupStats where
  totalExpiredJobs : Nat
  totalDuplicateJobs : Nat
  deletedExpiredJobs : Nat
  deletedDuplicateJobs : Nat
  errorCount : Nat
  organizationBreakdown : List (String × Nat × Option Int × Option Int)
deriving Repr, DecidableEq

/-- Embedding of `cleanupExpiredAndDuplicateJobs(client, dryRun)`: count
same-organization duplicates (step 1) and expired rows (step 2) on the
incoming store; return early when both counts are zero, or in dry-run mode
(identification only, deleted counts stay zero); otherwise delete the
duplicates (step 3, guarded by its count) and then the expired rows
(step 4, guarded by its count), each deletion reporting its row count. -/
def cleanupExpiredAndDuplicateJobs (store : JobStore) (now : Int) (dryRun : Bool) :
    CleanupStats × JobStore :=
  let totalDup := totalDuplicateJobs store
  let totalExp := totalExpiredJobs store now
  let baseStats : CleanupStats :=
    { totalExpiredJobs := totalExp
      totalDuplicateJobs := totalDup
      deletedExpiredJobs := 0
      deletedDuplicateJobs := 0
      errorCount := 0
      organizationBreakdown := organizationBreakdown store now }
  if totalExp == 0 && totalDup == 0 then
    (baseStats, store)
  else if dryRun then
    (baseStats, store)
  else
    let store1 := if totalDup > 0 then duplicatePass store else store
    let deletedDup := store.length - store1.length
    let store2 := if totalExp > 0 then expiredPass store1 now else store1
    let deletedExp := store1.length - store2.length
    ({ baseStats with deletedExpiredJobs := deletedExp, deletedDuplicateJobs := deletedDup },
     store2)

/-! ## Organization resolver -/

/-- A row of the `organization` table, restricted to the columns the
resolver's query touches. -/
structure Organization where
  id : Int
  code : String
  name : String
  short_name : String
  long_name : String
deriving Repr, DecidableEq

/-- The characters of a string, lower-cased. -/
def lowerChars (s : String) : List Char :=
  s.toList.map Char.toLower

/-- `column ILIKE '%dept%'`: the pattern occurs in the column value,
case-insensitively. -/
def containsInsensitive (hay needle : String) : Bool :=
  (lowerChars hay).tails.any fun t => (lowerChars needle).isPrefixOf t

/-- The WHERE clause of the resolver's query: the department text matches
`code`, `name`, `short_name` or `long_name`. -/
def organizationMatches (org : Organization) (dept : String) : Bool :=
  containsInsensitive org.code dept || containsInsensitive org.name dept ||
    containsInsensitive org.short_name dept || containsInsensitive org.long_name dept

/-- Embedding of `getOrganizationId(dept)`: `SELECT id FROM organization
WHERE ... LIMIT 1` over the table in row order, returning the first
matching id, and the fixed default id 128 when no row matches. The catch
branch of the JavaScript function also returns 128 on a query error; the
pure embedding has no failing queries, so the function is total and always
returns an id. -/
def getOrganizationId (orgs : List Organization) (dept : String) : Int :=
  match orgs.find? (fun o => organizationMatches o dept) with
  | some o => o.id
  | none => 128

/-! ## Orchestrator -/

/-- What happens when the orchestrator awaits one connector: it returns
normally or it throws with an error message. -/
inductive ConnectorOutcome where
  | ok
  | throws (message : String)
deriving Repr, DecidableEq

/-- A row of the `etl_status` table as written by `logETLStatus`,
restricted to the columns the claims are about. -/
structure StatusRow where
  organization_name : String
  status : String
  processed_count : Nat
  success_count : Nat
  error_count : Nat
  error_message : Option String
deriving Repr, DecidableEq

/-- The `etlResults` summary accumulated by `runEtl`. -/
structure EtlResults where
  successful : List String
  failed : List (String × String)
  totalProcessed : Nat
  totalErrors : Nat
deriving Repr, DecidableEq

/-- The begin-of-run status row: `logETLStatus(name, 'running', ...)` with
all counts zero. -/
def runningRow (name : String) : StatusRow :=
  { organization_name := name, status := "running"
    processed_count := 0, success_count := 0, error_count := 0, error_message := none }

/-- The success status row: the connectors do not yet report counts, so
`result` carries `processedCount = successCount = errorCount = 0`. -/
def successRow (name : String) : StatusRow :=
  { organization_name := name, status := "success"
    processed_count := 0, success_count := 0, error_count := 0, error_message := none }

/-- The failure status row written when the awaited connector threw: the
inner catch builds `result` with `processedCount: 0, successCount: 0,
errorCount: 1` and the failure branch logs exactly those counts together
with the error message. -/
def failedRow (name : String) (message : String) : StatusRow :=
  { organization_name := name, status := "failed"
    processed_count := 0, success_count := 0, error_count := 1, error_message := some message }

/-- The terminal status row of one source, by its outcome. -/
def terminalRow (job : String × ConnectorOutcome) : StatusRow :=
  match job.2 with
  | .ok => successRow job.1
  | .throws m => failedRow job.1 m

/-- Embedding of the per-source loop of `runEtl`: for each registered
connector in order, log a `running` row, await the connector inside a try
block, and on return log a `success` row (adding the source to
`successful`) or on a throw log a `failed` row with the error message
(adding the source and message to `failed`) — then continue with the next
connector either way. The Redis invalidation and the cleanup invocations
are try-caught side channels that touch neither the results nor the status
log and are not part of this embedding; the outer critical-error catch is
unreachable here because `logETLStatus` and `getJobCount` swallow their own
errors. Returns the cycle summary and the status rows written, in order. -/
def runEtl : List (String × ConnectorOutcome) → EtlResults × List StatusRow
  | [] => ({ successful := [], failed := [], totalProcessed := 0, totalErrors := 0 }, [])
  | (name, outcome) :: rest =>
    let (restResults, restLog) := runEtl rest
    match outcome with
    | .ok =>
      ({ restResults with successful := name :: restResults.successful },
       runningRow name :: successRow name :: restLog)
    | .throws m =>
      ({ restResults with
          failed := (name, m) :: restResults.failed
          totalErrors := restResults.totalErrors + 1 },
       runningRow name :: failedRow name m :: restLog)

/-! ## Sample data for witnesses and counterexamples -/

/-- A fully valid candidate, as a connector would produce it. -/
def sampleCandidate : JobData :=
  { job_id := some "42", job_title := some "Analyst", data_source := some "x",
    organization_id := some 7, end_date := some 99 }

/-- A candidate that carries the three validated fields but no
organization id. -/
def sampleMissingOrgCandidate : JobData :=
  { job_id := some "1", job_title := some "T", data_source := some "src" }

/-- A candidate with no job title. -/
def sampleMissingTitleCandidate : JobData :=
  { job_id := some "1", data_source := some "src", organization_id := some 7 }

/-- A candidate whose title is 501 characters long. -/
def longTitleCandidate : JobData :=
  { job_id := some "1", job_title := some (String.mk (List.replicate 501 'a')),
    data_source := some "src", organization_id := some 7 }

/-- A stored row whose deadline (end_date 0) lies before the sample
clock 1. -/
def expiredSampleRow : JobRow :=
  { id := 1, job_id := "42", language := "EN", category_code := "", job_title := "Analyst",
    job_code_title := "", job_description := "", job_family_code := "", job_level := "",
    duty_station := "NY", recruitment_type := "", start_date := none, end_date := some 0,
    dept := "", total_count := none, jn := "", jf := "", jc := "", jl := "",
    created := 0, data_source := "x", organization_id := 7, apply_link := "" }

/-- A stored row with no deadline. -/
def undatedSampleRow : JobRow :=
  { expiredSampleRow with id := 2, job_id := "43", end_date := none }

/-- Older copy of a duplicated posting: same title, duty station, source
and organization as `dupRowNewer`, ingested earlier. -/
def dupRowOlder : JobRow :=
  { expiredSampleRow with id := 3, job_id := "44", end_date := some 50, created := 10 }

/-- Newer copy of a duplicated posting. -/
def dupRowNewer : JobRow :=
  { expiredSampleRow with id := 4, job_id := "45", end_date := some 50, created := 20 }

/-! ## Natural-key uniqueness (C1) -/

/-- The central invariant: no two rows of the store share the natural-key
triple `(job_id, data_source, organization_id)`. -/
def naturalKeyUnique (store : JobStore) : Prop :=
  store.Pairwise fun a b => a.naturalKey ≠ b.naturalKey

theorem naturalKey_updateRow (r : JobRow) (job : JobData) (now : Int) :
    (updateRow r job now).naturalKey = r.naturalKey := rfl

theorem naturalKey_mkRow (newId : Nat) (job : JobData) (orgId : Int) (now : Int) :
    (mkRow newId job orgId now).naturalKey = candidateKey job orgId := rfl

/-- One merge preserves natural-key uniqueness: the update arm rewrites
rows in place without touching their keys, and the insert arm only fires
when no stored row carries the candidate's key. -/
theorem upsert_step_preserves_uniqueness (store : JobStore) (cand : JobData) (now : Int)
    (h : naturalKeyUnique store) : naturalKeyUnique (upsertJobVacancy store cand now).2 := by
  unfold upsertJobVacancy
  simp only []
  split
  · exact h
  · split
    · exact h
    · next orgId _ =>
      split
      · -- update arm: the map preserves every natural key
        unfold naturalKeyUnique
        rw [List.pairwise_map]
        refine h.imp fun {a b} hab => ?_
        have ka : (if a.naturalKey == candidateKey cand orgId then
            updateRow a cand now else a).naturalKey = a.naturalKey := by
          split <;> rfl
        have kb : (if b.naturalKey == candidateKey cand orgId then
            updateRow b cand now else b).naturalKey = b.naturalKey := by
          split <;> rfl
        rw [ka, kb]; exact hab
      · -- insert arm: the guard says no stored row carries the key
        next hany =>
        unfold naturalKeyUnique
        rw [List.pairwise_append]
        refine ⟨h, List.pairwise_singleton _ _, ?_⟩
        intro a ha b hb
        have hb1 : b = mkRow (nextId store) cand orgId now := by
          simpa using hb
        subst hb1
        rw [naturalKey_mkRow]
        intro hkey
        exact hany (List.any_eq_true.2 ⟨a, ha, by simp [hkey]⟩)

/-- C1: for every sequence of merges performed through the upsert
operation, the job store never contains two rows with the same natural-key
triple (job_id, data_source, organization_id): starting from any store
satisfying the uniqueness invariant, any sequence of `upsertJobVacancy`
calls leaves it satisfied, because a merge for an existing triple takes the
update arm instead of inserting a second row. -/
theorem upsertMany_preserves_natural_key_uniqueness (store : JobStore)
    (calls : List (JobData × Int)) (h : naturalKeyUnique store) :
    naturalKeyUnique (upsertMany store calls) := by
  induction calls generalizing store with
  | nil => exact h
  | cons c rest ih =>
    exact ih _ (upsert_step_preserves_uniqueness store c.1 c.2 h)

/-- Witness for C1: two merges of the same candidate into the empty store
leave the uniqueness invariant intact. -/
theorem upsertMany_preserves_natural_key_uniqueness_witness :
    naturalKeyUnique [] ∧
      naturalKeyUnique (upsertMany [] [(sampleCandidate, 0), (sampleCandidate, 5)]) :=
  ⟨List.Pairwise.nil,
    upsertMany_preserves_natural_key_uniqueness [] [(sampleCandidate, 0), (sampleCandidate, 5)]
      List.Pairwise.nil⟩

/-! ## Validation of required fields (C2, C10) -/

/-- Any error collected by `validateJobData` forces the early
validation-failure return of `upsertJobVacancy`, with no write. -/
theorem upsert_validationFailure_of_mem_errors (store : JobStore) (cand : JobData)
    (now : Int) (e : String)
    (he : e ∈ (validateJobData cand upsertRequiredFields).errors) :
    (upsertJobVacancy store cand now).1 =
        .validationFailure (validateJobData cand upsertRequiredFields).errors ∧
      (upsertJobVacancy store cand now).2 = store := by
  have hne : (validateJobData cand upsertRequiredFields).errors ≠ [] :=
    List.ne_nil_of_mem he
  have hvalid : (validateJobData cand upsertRequiredFields).isValid = false := by
    unfold validateJobData at hne ⊢
    simpa using hne
  unfold upsertJobVacancy
  simp [hvalid]

/-- C2 (amended): for every candidate in which one of the three fields
checked by `upsertJobVacancy` — job_id, job_title or data_source — is
missing (falsy), the merge returns a validation failure carrying the
corresponding message and performs no write to the store. -/
theorem upsert_missing_required_field_returns_validation_error (store : JobStore)
    (cand : JobData) (now : Int) (f : JobField) (hf : f ∈ upsertRequiredFields)
    (hmiss : f.truthyIn cand = false) :
    (upsertJobVacancy store cand now).2 = store ∧
      ∃ errs, (upsertJobVacancy store cand now).1 = .validationFailure errs ∧
        ("Missing required field: " ++ f.fieldName) ∈ errs := by
  have he : ("Missing required field: " ++ f.fieldName) ∈
      (validateJobData cand upsertRequiredFields).errors := by
    unfold validateJobData
    simp only [List.mem_append]
    exact Or.inl (Or.inl (List.mem_filterMap.2 ⟨f, hf, by simp [hmiss]⟩))
  obtain ⟨h1, h2⟩ := upsert_validationFailure_of_mem_errors store cand now _ he
  exact ⟨h2, _, h1, he⟩

/-- Witness for C2 (amended): a candidate with no job title is rejected by
validation and the empty store stays empty. -/
theorem upsert_missing_required_field_witness :
    JobField.job_title ∈ upsertRequiredFields ∧
      JobField.truthyIn .job_title sampleMissingTitleCandidate = false ∧
      ((upsertJobVacancy [] sampleMissingTitleCandidate 0).2 = [] ∧
        ∃ errs, (upsertJobVacancy [] sampleMissingTitleCandidate 0).1 =
            .validationFailure errs ∧
          ("Missing required field: " ++ JobField.fieldName .job_title) ∈ errs) :=
  ⟨by decide, by decide,
    upsert_missing_required_field_returns_validation_error [] sampleMissingTitleCandidate 0
      .job_title (by decide) (by decide)⟩

/-- Counterexample to C2 as stated: a candidate carrying job_id, job_title
and data_source but no organization_id passes validation (organization_id
is not among the required fields the code checks), so the merge does not
return a ValidationError — the missing key column surfaces as a
storage-layer failure instead. -/
theorem missing_organization_id_is_not_a_validation_error :
    (validateJobData sampleMissingOrgCandidate upsertRequiredFields).isValid = true ∧
      (upsertJobVacancy [] sampleMissingOrgCandidate 0).1 =
        .databaseFailure nullOrganizationIdMessage ∧
      ∀ errs, (upsertJobVacancy [] sampleMissingOrgCandidate 0).1 ≠
        .validationFailure errs := by
  refine ⟨by decide, by decide, ?_⟩
  intro errs h
  rw [show (upsertJobVacancy [] sampleMissingOrgCandidate 0).1 =
      .databaseFailure nullOrganizationIdMessage from by decide] at h
  exact UpsertResult.noConfusion h

/-- C10: a candidate whose job_title exceeds 500 characters is rejected by
validation — the merge returns a validation failure carrying the length
error and performs no write — even when job_id, job_title and data_source
are all present. -/
theorem upsert_rejects_overlong_title (store : JobStore) (cand : JobData) (now : Int)
    (t : String) (ht : cand.job_title = some t) (hlen : 500 < t.length) :
    (upsertJobVacancy store cand now).2 = store ∧
      ∃ errs, (upsertJobVacancy store cand now).1 = .validationFailure errs ∧
        "Job title exceeds maximum length (500 characters)" ∈ errs := by
  have he : "Job title exceeds maximum length (500 characters)" ∈
      (validateJobData cand upsertRequiredFields).errors := by
    unfold validateJobData
    simp only [List.mem_append, ht]
    exact Or.inr (by simp [hlen])
  obtain ⟨h1, h2⟩ := upsert_validationFailure_of_mem_errors store cand now _ he
  exact ⟨h2, _, h1, he⟩

set_option maxRecDepth 4000 in
/-- Witness for C10: a 501-character title is rejected. -/
theorem upsert_rejects_overlong_title_witness :
    longTitleCandidate.job_title = some (String.mk (List.replicate 501 'a')) ∧
      500 < (String.mk (List.replicate 501 'a')).length ∧
      ((upsertJobVacancy [] longTitleCandidate 0).2 = [] ∧
        ∃ errs, (upsertJobVacancy [] longTitleCandidate 0).1 = .validationFailure errs ∧
          "Job title exceeds maximum length (500 characters)" ∈ errs) :=
  ⟨rfl, by decide,
    upsert_rejects_overlong_title [] longTitleCandidate 0 _ rfl (by decide)⟩

/-! ## Idempotence of the merge (C3) -/

/-- The candidate-derived content of a stored row: everything except the
ingestion timestamp `created`, which the update arm refreshes by design. -/
def JobRow.content (r : JobRow) : JobRow :=
  { r with created := 0 }

theorem updateRow_mkRow (newId : Nat) (job : JobData) (orgId : Int) (t1 t2 : Int) :
    updateRow (mkRow newId job orgId t1) job t2 = mkRow newId job orgId t2 := rfl

theorem content_mkRow (newId : Nat) (job : JobData) (orgId : Int) (t1 t2 : Int) :
    (mkRow newId job orgId t1).content = (mkRow newId job orgId t2).content := rfl

/-- C3: merging the same unchanged, valid candidate twice, starting from a
store with no row for its natural key, reports action `inserted` on the
first call and `updated` on the second; the store after the second call is
the store after the first with only the ingestion timestamp refreshed, so
the stored row's candidate-derived content is identical after both calls. -/
theorem upsert_same_candidate_twice_inserts_then_updates (store : JobStore)
    (cand : JobData) (org : Int) (now1 now2 : Int)
    (hv : (validateJobData cand upsertRequiredFields).isValid = true)
    (ho : cand.organization_id = some org)
    (hk : ∀ r ∈ store, r.naturalKey ≠ candidateKey cand org) :
    (upsertJobVacancy store cand now1).1 =
        .success (cand.job_title.getD "") .inserted ∧
      (upsertJobVacancy (upsertJobVacancy store cand now1).2 cand now2).1 =
        .success (cand.job_title.getD "") .updated ∧
      (upsertJobVacancy store cand now1).2 =
        store ++ [mkRow (nextId store) cand org now1] ∧
      (upsertJobVacancy (upsertJobVacancy store cand now1).2 cand now2).2 =
        store ++ [mkRow (nextId store) cand org now2] ∧
      ((upsertJobVacancy (upsertJobVacancy store cand now1).2 cand now2).2).map
          JobRow.content =
        ((upsertJobVacancy store cand now1).2).map JobRow.content := by
  have hany : store.any (fun r => r.naturalKey == candidateKey cand org) = false := by
    rw [List.any_eq_false]
    intro r hr
    simpa using hk r hr
  have h1 : upsertJobVacancy store cand now1 =
      (.success (cand.job_title.getD "") .inserted,
        store ++ [mkRow (nextId store) cand org now1]) := by
    unfold upsertJobVacancy
    simp [hv, ho, hany]
  have hany2 : (store ++ [mkRow (nextId store) cand org now1]).any
      (fun r => r.naturalKey == candidateKey cand org) = true := by
    rw [List.any_eq_true]
    exact ⟨mkRow (nextId store) cand org now1, by simp, by simp [naturalKey_mkRow]⟩
  have hstore : store.map
      (fun r => if r.naturalKey = candidateKey cand org then updateRow r cand now2 else r) =
      store := by
    have hid : ∀ r ∈ store,
        (if r.naturalKey = candidateKey cand org then updateRow r cand now2 else r) = r :=
      fun r hr => if_neg (hk r hr)
    rw [List.map_congr_left hid]
    simp
  have hnew : (if (mkRow (nextId store) cand org now1).naturalKey = candidateKey cand org
      then updateRow (mkRow (nextId store) cand org now1) cand now2
      else mkRow (nextId store) cand org now1) = mkRow (nextId store) cand org now2 := by
    rw [if_pos (naturalKey_mkRow _ _ _ _), updateRow_mkRow]
  have h2 : upsertJobVacancy (store ++ [mkRow (nextId store) cand org now1]) cand now2 =
      (.success (cand.job_title.getD "") .updated,
        store ++ [mkRow (nextId store) cand org now2]) := by
    unfold upsertJobVacancy
    simp [hv, ho, hany2, hstore, hnew]
  rw [h1]
  rw [h2]
  refine ⟨rfl, rfl, rfl, rfl, ?_⟩
  simp only [List.map_append, List.map_cons, List.map_nil]
  rw [content_mkRow (nextId store) cand org now2 now1]

/-- Witness for C3: the sample candidate merged twice into the empty store
at times 0 and 5. -/
theorem upsert_same_candidate_twice_witness :
    (validateJobData sampleCandidate upsertRequiredFields).isValid = true ∧
      sampleCandidate.organization_id = some 7 ∧
      ((upsertJobVacancy [] sampleCandidate 0).1 =
          .success (sampleCandidate.job_title.getD "") .inserted ∧
        (upsertJobVacancy (upsertJobVacancy [] sampleCandidate 0).2 sampleCandidate 5).1 =
          .success (sampleCandidate.job_title.getD "") .updated ∧
        (upsertJobVacancy [] sampleCandidate 0).2 =
          [] ++ [mkRow (nextId []) sampleCandidate 7 0] ∧
        (upsertJobVacancy (upsertJobVacancy [] sampleCandidate 0).2 sampleCandidate 5).2 =
          [] ++ [mkRow (nextId []) sampleCandidate 7 5] ∧
        ((upsertJobVacancy (upsertJobVacancy [] sampleCandidate 0).2 sampleCandidate 5).2).map
            JobRow.content =
          ((upsertJobVacancy [] sampleCandidate 0).2).map JobRow.content) :=
  ⟨by decide, rfl,
    upsert_same_candidate_twice_inserts_then_updates [] sampleCandidate 7 0 5
      (by decide) rfl (by simp)⟩

/-! ## Expired pass (C4) and dry-run frame (C6) -/

theorem mem_expiredPass (t : JobStore) (now : Int) (r : JobRow) :
    r ∈ expiredPass t now ↔ r ∈ t ∧ isExpired r now = false := by
  simp [expiredPass, List.mem_filter]

/-- When the expired count is zero, no stored row is expired. -/
theorem no_expired_of_totalExpiredJobs_eq_zero (store : JobStore) (now : Int)
    (h : totalExpiredJobs store now = 0) : ∀ r ∈ store, isExpired r now = false := by
  intro r hr
  unfold totalExpiredJobs expiredRows at h
  rw [List.length_eq_zero] at h
  by_contra hcon
  have : r ∈ store.filter (fun x => isExpired x now) :=
    List.mem_filter.2 ⟨hr, by simpa using hcon⟩
  rw [h] at this
  cases this

/-- C4: in live mode, the cleanup run deletes every row whose end_date is
strictly before now, and the expired pass itself removes exactly the rows
with a past end_date — a row whose end_date is null (none) or at least now
is never deleted by the expired pass. -/
theorem expired_pass_deletes_exactly_past_end_date (store : JobStore) (now : Int) :
    (∀ r ∈ store, isExpired r now = true →
        r ∉ (cleanupExpiredAndDuplicateJobs store now false).2) ∧
      (∀ t : JobStore, ∀ r ∈ t, isExpired r now = false → r ∈ expiredPass t now) ∧
      (∀ t : JobStore, ∀ r ∈ expiredPass t now, r ∈ t ∧ isExpired r now = false) := by
  refine ⟨?_, ?_, ?_⟩
  · intro r hr hexp hmem
    simp only [cleanupExpiredAndDuplicateJobs] at hmem
    split at hmem
    · next hcond =>
      simp only [Bool.and_eq_true, beq_iff_eq] at hcond
      have := no_expired_of_totalExpiredJobs_eq_zero store now hcond.1 r hr
      rw [hexp] at this
      cases this
    · split at hmem
      · simp at *
      · by_cases hexp0 : totalExpiredJobs store now = 0
        · have := no_expired_of_totalExpiredJobs_eq_zero store now hexp0 r hr
          rw [hexp] at this
          cases this
        · rw [if_pos (Nat.pos_of_ne_zero hexp0)] at hmem
          have := (mem_expiredPass _ now r).1 hmem
          rw [hexp] at this
          exact absurd this.2 (by simp)
  · intro t r hr h
    exact (mem_expiredPass t now r).2 ⟨hr, h⟩
  · intro t r hr
    exact (mem_expiredPass t now r).1 hr

/-- Witness for C4: with the clock at 1, the row whose deadline was 0 is
removed by the live cleanup run, while the row with no deadline survives
the expired pass. -/
theorem expired_pass_deletes_exactly_past_end_date_witness :
    (isExpired expiredSampleRow 1 = true ∧
        expiredSampleRow ∉
          (cleanupExpiredAndDuplicateJobs [expiredSampleRow, undatedSampleRow] 1 false).2) ∧
      (undatedSampleRow ∈ ([expiredSampleRow, undatedSampleRow] : JobStore) ∧
        isExpired undatedSampleRow 1 = false ∧
        undatedSampleRow ∈ expiredPass [expiredSampleRow, undatedSampleRow] 1) :=
  ⟨⟨by decide,
      (expired_pass_deletes_exactly_past_end_date [expiredSampleRow, undatedSampleRow] 1).1
        expiredSampleRow (by simp) (by decide)⟩,
    ⟨by simp, by decide,
      (expired_pass_deletes_exactly_past_end_date [expiredSampleRow, undatedSampleRow] 1).2.1
        [expiredSampleRow, undatedSampleRow] undatedSampleRow (by simp) (by decide)⟩⟩

/-- C6 (amended): a dry-run cleanup leaves the store untouched and reports
the same identification statistics (expired total, duplicate total,
per-source breakdown) as a live run on the same store, while its deletion
counters stay zero — it does not reproduce the live run's deletion
counters. -/
theorem dry_run_preserves_store_and_identification_stats (store : JobStore) (now : Int) :
    (cleanupExpiredAndDuplicateJobs store now true).2 = store ∧
      (cleanupExpiredAndDuplicateJobs store now true).1.deletedExpiredJobs = 0 ∧
      (cleanupExpiredAndDuplicateJobs store now true).1.deletedDuplicateJobs = 0 ∧
      (cleanupExpiredAndDuplicateJobs store now true).1.totalExpiredJobs =
        (cleanupExpiredAndDuplicateJobs store now false).1.totalExpiredJobs ∧
      (cleanupExpiredAndDuplicateJobs store now true).1.totalDuplicateJobs =
        (cleanupExpiredAndDuplicateJobs store now false).1.totalDuplicateJobs ∧
      (cleanupExpiredAndDuplicateJobs store now true).1.organizationBreakdown =
        (cleanupExpiredAndDuplicateJobs store now false).1.organizationBreakdown := by
  simp only [cleanupExpiredAndDuplicateJobs]
  by_cases h : (totalExpiredJobs store now == 0 && totalDuplicateJobs store == 0) = true
  · simp [h]
  · simp [h]

/-- Counterexample to C6 as stated: on a store holding one expired row, the
live run reports deletedExpiredJobs = 1 while the dry run reports 0, so the
two statistics objects are not identical. -/
theorem dry_run_stats_differ_from_live_stats :
    (cleanupExpiredAndDuplicateJobs [expiredSampleRow] 1 false).1.deletedExpiredJobs = 1 ∧
      (cleanupExpiredAndDuplicateJobs [expiredSampleRow] 1 true).1.deletedExpiredJobs = 0 ∧
      (cleanupExpiredAndDuplicateJobs [expiredSampleRow] 1 true).1 ≠
        (cleanupExpiredAndDuplicateJobs [expiredSampleRow] 1 false).1 := by
  refine ⟨by decide, by decide, ?_⟩
  intro h
  have h1 : (cleanupExpiredAndDuplicateJobs [expiredSampleRow] 1 true).1.deletedExpiredJobs =
      (cleanupExpiredAndDuplicateJobs [expiredSampleRow] 1 false).1.deletedExpiredJobs := by
    rw [h]
  rw [show (cleanupExpiredAndDuplicateJobs [expiredSampleRow] 1 true).1.deletedExpiredJobs = 0
    from by decide] at h1
  rw [show (cleanupExpiredAndDuplicateJobs [expiredSampleRow] 1 false).1.deletedExpiredJobs = 1
    from by decide] at h1
  cases h1

/-! ## Duplicate pass (C5) -/

theorem mem_duplicatePass (store : JobStore) (r : JobRow) :
    r ∈ duplicatePass store ↔
      r ∈ store ∧ ∀ q ∈ store, groupKey q = groupKey r → sortsBefore q r = false := by
  simp [duplicatePass, List.mem_filter, List.any_eq_false]

theorem sortsBefore_irrefl (a : JobRow) : sortsBefore a a = false := by
  simp [sortsBefore]

theorem sortsBefore_trans (a b c : JobRow) (hab : sortsBefore a b = true)
    (hbc : sortsBefore b c = true) : sortsBefore a c = true := by
  simp only [sortsBefore, Bool.or_eq_true, Bool.and_eq_true, decide_eq_true_eq,
    beq_iff_eq] at hab hbc ⊢
  omega

theorem sortsBefore_total (a b : JobRow) (h : a.id ≠ b.id) :
    sortsBefore a b = true ∨ sortsBefore b a = true := by
  simp only [sortsBefore, Bool.or_eq_true, Bool.and_eq_true, decide_eq_true_eq,
    beq_iff_eq]
  omega

/-- Every nonempty list of rows has a member that no member sorts strictly
before (a `ROW_NUMBER` 1 row of its partition). -/
theorem exists_row_number_one (l : List JobRow) (hne : l ≠ []) :
    ∃ r ∈ l, ∀ q ∈ l, sortsBefore q r = false := by
  induction l with
  | nil => exact absurd rfl hne
  | cons x xs ih =>
    cases xs with
    | nil =>
      refine ⟨x, List.mem_cons_self x [], ?_⟩
      intro q hq
      rcases List.mem_cons.1 hq with h | h
      · subst h; exact sortsBefore_irrefl q
      · cases h
    | cons y ys =>
      obtain ⟨m, hm, hmax⟩ := ih (by simp)
      by_cases hb : sortsBefore x m = true
      · refine ⟨x, List.mem_cons_self x (y :: ys), ?_⟩
        intro q hq
        rcases List.mem_cons.1 hq with h | h
        · subst h; exact sortsBefore_irrefl q
        · by_contra hcon
          have hq' : sortsBefore q x = true := by
            cases hqx : sortsBefore q x with
            | true => rfl
            | false => exact absurd hqx hcon
          have := sortsBefore_trans q x m hq' hb
          rw [hmax q h] at this
          cases this
      · refine ⟨m, List.mem_cons_of_mem x hm, ?_⟩
        intro q hq
        rcases List.mem_cons.1 hq with h | h
        · subst h
          cases hqx : sortsBefore q m with
          | true => exact absurd hqx hb
          | false => rfl
        · exact hmax q h
/-- A list with no duplicate elements whose predicate holds on exactly one
member filters to that singleton. -/
theorem filter_eq_singleton_of_unique {α : Type} (l : List α) (p : α → Bool) (r : α)
    (hnd : l.Nodup) (hmem : r ∈ l) (hr : p r = true)
    (huniq : ∀ q ∈ l, p q = true → q = r) : l.filter p = [r] := by
  induction l with
  | nil => cases hmem
  | cons a as ih =>
    have hnodup := List.nodup_cons.1 hnd
    rcases List.mem_cons.1 hmem with h | h
    · subst h
      rw [List.filter_cons, if_pos (by simp [hr])]
      have hnil : as.filter p = [] := by
        rw [List.filter_eq_nil_iff]
        intro q hq hpq
        have := huniq q (List.mem_cons_of_mem _ hq) hpq
        subst this
        exact hnodup.1 hq
      rw [hnil]
    · have hpa : p a = false := by
        cases hpa : p a with
        | false => rfl
        | true =>
          have := huniq a (List.mem_cons_self a as) hpa
          subst this
          exact absurd h hnodup.1
      rw [List.filter_cons, if_neg (by simp [hpa])]
      exact ih hnodup.2 h fun q hq hpq => huniq q (List.mem_cons_of_mem _ hq) hpq

/-- C5: after the duplicate pass, every group of rows sharing
(job_title, duty_station, data_source, organization_id) that was present in
the store is represented by exactly one surviving row, and that survivor
sorts before every other member of its group under
ORDER BY created DESC, id DESC — it is the most-recently-ingested row,
ties broken in favour of the higher internal id. The hypothesis that the
internal ids are pairwise distinct is guaranteed by the serial id column. -/
theorem duplicate_pass_keeps_unique_most_recent_row (store : JobStore)
    (hids : (store.map JobRow.id).Nodup) (g : String × String × String × Int)
    (hg : ∃ r ∈ store, groupKey r = g) :
    ∃ r ∈ store, groupKey r = g ∧
      (duplicatePass store).filter (fun x => groupKey x == g) = [r] ∧
      ∀ q ∈ store, groupKey q = g → q ≠ r → sortsBefore r q = true := by
  have hgrpne : store.filter (fun x => groupKey x == g) ≠ [] := by
    obtain ⟨r0, hr0, hk0⟩ := hg
    intro hnil
    have : r0 ∈ store.filter (fun x => groupKey x == g) :=
      List.mem_filter.2 ⟨hr0, by simp [hk0]⟩
    rw [hnil] at this
    cases this
  obtain ⟨m, hmgrp, hmax⟩ := exists_row_number_one _ hgrpne
  have hmstore : m ∈ store := (List.mem_filter.1 hmgrp).1
  have hmkey : groupKey m = g := by
    have := (List.mem_filter.1 hmgrp).2
    simpa using this
  have hnd : store.Nodup := List.Nodup.of_map _ hids
  have hinj : ∀ a ∈ store, ∀ b ∈ store, a.id = b.id → a = b := by
    intro a ha b hb hab
    exact List.inj_on_of_nodup_map hids ha hb hab
  have hunbeaten : ∀ q ∈ store, groupKey q = groupKey m → sortsBefore q m = false := by
    intro q hq hkq
    exact hmax q (List.mem_filter.2 ⟨hq, by simp [hkq, hmkey]⟩)
  have hmdup : m ∈ duplicatePass store :=
    (mem_duplicatePass store m).2 ⟨hmstore, hunbeaten⟩
  have hbeats : ∀ q ∈ store, groupKey q = g → q ≠ m → sortsBefore m q = true := by
    intro q hq hkq hne
    have hidne : m.id ≠ q.id := by
      intro h
      exact hne (hinj m hmstore q hq h).symm
    rcases sortsBefore_total m q hidne with h | h
    · exact h
    · have := hunbeaten q hq (by rw [hkq, hmkey])
      rw [this] at h
      cases h
  refine ⟨m, hmstore, hmkey, ?_, hbeats⟩
  apply filter_eq_singleton_of_unique
  · exact (List.filter_sublist store).nodup hnd
  · exact hmdup
  · simp [hmkey]
  · intro q hq hpq
    have hqd := (mem_duplicatePass store q).1 hq
    have hkq : groupKey q = g := by simpa using hpq
    by_contra hne
    have h1 := hbeats q hqd.1 hkq hne
    have h2 := hqd.2 m hmstore (by rw [hmkey, hkq])
    rw [h2] at h1
    cases h1

/-- Witness for C5: of two copies of the same posting (same title, duty
station, source and organization), the duplicate pass keeps exactly the
more recently ingested one. -/
theorem duplicate_pass_keeps_unique_most_recent_row_witness :
    (([dupRowOlder, dupRowNewer] : JobStore).map JobRow.id).Nodup ∧
      (∃ r ∈ ([dupRowOlder, dupRowNewer] : JobStore),
        groupKey r = ("Analyst", "NY", "x", 7)) ∧
      (∃ r ∈ ([dupRowOlder, dupRowNewer] : JobStore),
        groupKey r = ("Analyst", "NY", "x", 7) ∧
          (duplicatePass [dupRowOlder, dupRowNewer]).filter
              (fun x => groupKey x == ("Analyst", "NY", "x", 7)) = [r] ∧
          ∀ q ∈ ([dupRowOlder, dupRowNewer] : JobStore),
            groupKey q = ("Analyst", "NY", "x", 7) → q ≠ r → sortsBefore r q = true) :=
  ⟨by decide, ⟨dupRowNewer, by simp, by decide⟩,
    duplicate_pass_keeps_unique_most_recent_row [dupRowOlder, dupRowNewer] (by decide)
      ("Analyst", "NY", "x", 7) ⟨dupRowNewer, by simp, by decide⟩⟩

/-! ## Orchestrator (C7, C9) -/

/-- The status log of a cycle: a `running` row followed by a terminal row
for every registered connector, in registry order. -/
theorem runEtl_log_eq (jobs : List (String × ConnectorOutcome)) :
    (runEtl jobs).2 = jobs.flatMap fun j => [runningRow j.1, terminalRow j] := by
  induction jobs with
  | nil => rfl
  | cons j rest ih =>
    obtain ⟨n, o⟩ := j
    cases o with
    | ok => simp [runEtl, ih, terminalRow]
    | throws m => simp [runEtl, ih, terminalRow]

/-- The failed list of a cycle: exactly the connectors that threw, with
their messages, in registry order. -/
theorem runEtl_failed_eq (jobs : List (String × ConnectorOutcome)) :
    (runEtl jobs).1.failed = jobs.filterMap fun j =>
      match j.2 with
      | .ok => none
      | .throws m => some (j.1, m) := by
  induction jobs with
  | nil => rfl
  | cons j rest ih =>
    obtain ⟨n, o⟩ := j
    cases o with
    | ok => simp [runEtl, ih]
    | throws m => simp [runEtl, ih]

/-- The successful list of a cycle: exactly the connectors that returned
normally, in registry order. -/
theorem runEtl_successful_eq (jobs : List (String × ConnectorOutcome)) :
    (runEtl jobs).1.successful = jobs.filterMap fun j =>
      match j.2 with
      | .ok => some j.1
      | .throws _ => none := by
  induction jobs with
  | nil => rfl
  | cons j rest ih =>
    obtain ⟨n, o⟩ := j
    cases o with
    | ok => simp [runEtl, ih]
    | throws m => simp [runEtl, ih]

/-- C7: when one connector throws during a cycle, the orchestrator records
that source as failed with its error message (both in the cycle summary and
as a `failed` status row), and still invokes every remaining connector in
the registry — each later source gets its `running` and terminal status
rows, lands in `successful` if it returned and in `failed` with its own
message if it threw. A source-level failure never aborts the cycle. -/
theorem connector_failure_is_isolated (pre post : List (String × ConnectorOutcome))
    (name message : String) :
    (name, message) ∈ (runEtl (pre ++ (name, .throws message) :: post)).1.failed ∧
      failedRow name message ∈ (runEtl (pre ++ (name, .throws message) :: post)).2 ∧
      ∀ job ∈ post,
        runningRow job.1 ∈ (runEtl (pre ++ (name, .throws message) :: post)).2 ∧
        terminalRow job ∈ (runEtl (pre ++ (name, .throws message) :: post)).2 ∧
        (job.2 = .ok →
          job.1 ∈ (runEtl (pre ++ (name, .throws message) :: post)).1.successful) ∧
        ∀ m, job.2 = .throws m →
          (job.1, m) ∈ (runEtl (pre ++ (name, .throws message) :: post)).1.failed := by
  have hmem : ((name, ConnectorOutcome.throws message) : String × ConnectorOutcome) ∈
      pre ++ (name, ConnectorOutcome.throws message) :: post := by simp
  refine ⟨?_, ?_, ?_⟩
  · rw [runEtl_failed_eq]
    exact List.mem_filterMap.2 ⟨(name, .throws message), hmem, rfl⟩
  · rw [runEtl_log_eq]
    exact List.mem_flatMap.2 ⟨(name, .throws message), hmem, by simp [terminalRow]⟩
  · intro job hjob
    have hmemj : job ∈ pre ++ (name, ConnectorOutcome.throws message) :: post := by
      simp [hjob]
    obtain ⟨n, o⟩ := job
    refine ⟨?_, ?_, ?_, ?_⟩
    · rw [runEtl_log_eq]
      exact List.mem_flatMap.2 ⟨(n, o), hmemj, by simp⟩
    · rw [runEtl_log_eq]
      exact List.mem_flatMap.2 ⟨(n, o), hmemj, by simp⟩
    · intro hok
      rw [runEtl_successful_eq]
      refine List.mem_filterMap.2 ⟨(n, o), hmemj, ?_⟩
      simp at hok
      rw [hok]
    · intro m hthrow
      rw [runEtl_failed_eq]
      refine List.mem_filterMap.2 ⟨(n, o), hmemj, ?_⟩
      simp at hthrow
      rw [hthrow]

/-- Witness for C7: with a registry of three connectors where the middle
one throws, the cycle records the failure and still runs the third. -/
theorem connector_failure_is_isolated_witness :
    (("UNHCR", ConnectorOutcome.ok) : String × ConnectorOutcome) ∈
        [("UNHCR", ConnectorOutcome.ok)] ∧
      (("IMF", "fetch boom") ∈
          (runEtl ([("WFP", .ok)] ++ ("IMF", .throws "fetch boom") ::
            [("UNHCR", .ok)])).1.failed ∧
        runningRow "UNHCR" ∈
          (runEtl ([("WFP", .ok)] ++ ("IMF", .throws "fetch boom") ::
            [("UNHCR", .ok)])).2 ∧
        "UNHCR" ∈
          (runEtl ([("WFP", .ok)] ++ ("IMF", .throws "fetch boom") ::
            [("UNHCR", .ok)])).1.successful) := by
  have h := connector_failure_is_isolated [("WFP", .ok)] [("UNHCR", .ok)] "IMF" "fetch boom"
  have hm : (("UNHCR", ConnectorOutcome.ok) : String × ConnectorOutcome) ∈
      [("UNHCR", ConnectorOutcome.ok)] := by simp
  obtain ⟨h1, _, h3⟩ := h
  obtain ⟨hr, _, hs, _⟩ := h3 ("UNHCR", .ok) hm
  exact ⟨hm, h1, hr, hs rfl⟩

/-- C9 (code bug): when a connector throws, the orchestrator writes a
`failed` status row with processed_count = 0, success_count = 0 and
error_count = 1, so the row violates
success_count + error_count <= processed_count — the invariant the claim
states and that the repository's own `database-schema.sql` declares as the
CHECK constraint `valid_counts` on `etl_status`. -/
theorem failed_run_status_row_violates_count_invariant :
    failedRow "IMF" "fetch failed" ∈ (runEtl [("IMF", .throws "fetch failed")]).2 ∧
      ∃ row ∈ (runEtl [("IMF", .throws "fetch failed")]).2,
        row.processed_count < row.success_count + row.error_count := by
  refine ⟨by decide, failedRow "IMF" "fetch failed", by decide, by decide⟩

/-! ## Organization resolver (C8) -/

/-- C8: the organization resolver is total — for every organization table
and every department text it returns an id without raising — and either
some organization matches the case-insensitive partial-match predicate and
the result is the id of the first matching row, or no row matches and the
result is the fixed default id 128. -/
theorem getOrganizationId_first_match_or_default (orgs : List Organization)
    (dept : String) :
    (∃ pre o post, orgs = pre ++ o :: post ∧ organizationMatches o dept = true ∧
        (∀ p ∈ pre, organizationMatches p dept = false) ∧
        getOrganizationId orgs dept = o.id) ∨
      ((∀ o ∈ orgs, organizationMatches o dept = false) ∧
        getOrganizationId orgs dept = 128) := by
  induction orgs with
  | nil =>
    right
    refine ⟨?_, rfl⟩
    intro o ho
    cases ho
  | cons a as ih =>
    cases ha : organizationMatches a dept with
    | true =>
      left
      refine ⟨[], a, as, rfl, ha, ?_, ?_⟩
      · intro p hp
        cases hp
      · have hfind : List.find? (fun o => organizationMatches o dept) (a :: as) = some a := by
          rw [List.find?_cons]
          simp [ha]
        unfold getOrganizationId
        rw [hfind]
    | false =>
      have hskip : getOrganizationId (a :: as) dept = getOrganizationId as dept := by
        have hfind : List.find? (fun o => organizationMatches o dept) (a :: as) =
            List.find? (fun o => organizationMatches o dept) as := by
          rw [List.find?_cons]
          simp [ha]
        unfold getOrganizationId
        rw [hfind]
      rcases ih with ⟨pre, o, post, heq, ho, hpre, hid⟩ | ⟨hnone, hid⟩
      · left
        refine ⟨a :: pre, o, post, by rw [heq, List.cons_append], ho, ?_, by rw [hskip, hid]⟩
        intro p hp
        rcases List.mem_cons.1 hp with h | h
        · subst h; exact ha
        · exact hpre p h
      · right
        refine ⟨?_, by rw [hskip, hid]⟩
        intro o ho
        rcases List.mem_cons.1 ho with h | h
        · subst h; exact ha
        · exact hnone o h

/-- The one-row organization table used by the C8 witness. -/
def wfpOrganization : Organization :=
  { id := 3, code := "WFP", name := "World Food Programme",
    short_name := "WFP", long_name := "World Food Programme" }

/-- Witness for C8: on a one-row table, a department text contained in the
organization name resolves to that row's id, and on the empty table any
text resolves to the default 128. -/
theorem getOrganizationId_first_match_or_default_witness :
    getOrganizationId [wfpOrganization] "food" = 3 ∧
      getOrganizationId ([] : List Organization) "anything" = 128 ∧
      ((∃ pre o post, ([wfpOrganization] : List Organization) = pre ++ o :: post ∧
          organizationMatches o "food" = true ∧
          (∀ p ∈ pre, organizationMatches p "food" = false) ∧
          getOrganizationId [wfpOrganization] "food" = o.id) ∨
        ((∀ o ∈ ([wfpOrganization] : List Organization),
            organizationMatches o "food" = false) ∧
          getOrganizationId [wfpOrganization] "food" = 128)) :=
  ⟨by decide, by decide,
    getOrganizationId_first_match_or_default [wfpOrganization] "food"⟩

end UnJobZone
